import Mathlib

/-!
Verification development for the mixer repository.

Shallow embedding of:
  - the filesystem config store (store/fsstore2: parseFile, parseChunk,
    checkAndUpdate, readFiles),
  - the gRPC API server (pkg/api/grpcServer.go: Check, Report, quota,
    quotaOld and the per-request quota loop),
  - the denier adapter (adapter/denier/denier.go),
  - the expression-language match builtin (modelled from the spec; its
    implementation is not part of the sources, only its tests are).

External collaborators (the YAML unmarshaller, the sha1 hash, the runtime
and aspect dispatchers, the attribute bags) are abstracted as explicit
inputs or oracle functions; everything the source file computes itself is
translated directly.
-/

/-! ## Config store data model (store package) -/

/-- Key identifies a resource by (Kind, Namespace, Name), as in store.Key. -/
structure Key where
  kind : String
  ns : String
  name : String
deriving DecidableEq, Repr

/-- ResourceMeta mirrors the metadata section of a config resource. -/
structure ResourceMeta where
  ns : String
  name : String
deriving DecidableEq, Repr

/-- Resource mirrors the fsstore2 resource struct: Kind, APIVersion,
Metadata, Spec and the sha1 content hash. The spec map is kept opaque as an
optional association list (none models the Go nil map of the zero value);
the hash is an abstract Nat computed outside (crypto/sha1 is an external
library). -/
structure Resource where
  kind : String
  apiVersion : String
  metadata : ResourceMeta
  spec : Option (List (String × String))
  sha : Nat
deriving DecidableEq, Repr

/-- Key() of a resource, as in resource.Key(). -/
def Resource.key (r : Resource) : Key :=
  { kind := r.kind, ns := r.metadata.ns, name := r.metadata.name }

/-- The zero-valued resource, as the emptyResource variable of fsstore2. -/
def emptyResource : Resource :=
  { kind := "", apiVersion := "", metadata := { ns := "", name := "" },
    spec := none, sha := 0 }

/-- empty(r) of fsstore2: reflect.DeepEqual against the zero resource. -/
def empty (r : Resource) : Bool :=
  decide (r = emptyResource)

/-- parseChunk of fsstore2. The YAML unmarshal of the chunk bytes is an
external library call; it is passed in as an Except value (error when the
document fails to unmarshal, otherwise the decoded resource with the sha
field still zero). The sha1 of the chunk is passed as shaOfChunk. -/
def parseChunk (unmarshal : Except String Resource) (shaOfChunk : Nat) :
    Except String (Option Resource) :=
  match unmarshal with
  | .error e => .error e
  | .ok r =>
    if empty r then
      .ok none
    else if r.kind = "" ∨ r.metadata.ns = "" ∨ r.metadata.name = "" then
      .error "key elements are empty"
    else
      .ok (some { r with sha := shaOfChunk })

/-- parseFile of fsstore2: the loop over the document chunks of one file.
Each chunk is represented by its unmarshal outcome and its sha1. Chunks
that fail to parse are skipped (logged in the source), empty chunks are
skipped, the rest are collected. -/
def parseFile (chunks : List (Except String Resource × Nat)) : List Resource :=
  chunks.filterMap fun c =>
    match parseChunk c.1 c.2 with
    | .ok (some r) => some r
    | _ => none

/-- Association-list lookup standing for Go map indexing data[k]. -/
def lookupKey : List (Key × Resource) → Key → Option Resource
  | [], _ => none
  | (k0, r) :: t, k => if k0 = k then some r else lookupKey t k

/-- Go map insertion result[k] = r: replaces any binding of k. -/
def insertKey (data : List (Key × Resource)) (k : Key) (r : Resource) :
    List (Key × Resource) :=
  (data.filter fun pr => pr.1 ≠ k) ++ [(k, r)]

/-- readFiles of fsstore2, with the filesystem walk and parsing abstracted
to the list of resources parsed from all files: keeps only the configured
kinds and indexes the survivors by Key. -/
def readFiles (kinds : List String) (parsed : List Resource) :
    List (Key × Resource) :=
  parsed.foldl
    (fun acc r => if kinds.contains r.kind then insertKey acc r.key r else acc)
    []

/-- ChangeType of store events. -/
inductive ChangeType where
  | update
  | delete
deriving DecidableEq, Repr

/-- BackEndResource: the value carried by an Update event. -/
structure BackEndResource where
  metadata : ResourceMeta
  spec : Option (List (String × String))
deriving DecidableEq, Repr

/-- BackendEvent of the store package. -/
structure BackendEvent where
  key : Key
  etype : ChangeType
  value : Option BackEndResource
deriving DecidableEq, Repr

/-- The keys checkAndUpdate collects as updated: keys of the new data that
are absent from the old snapshot or whose sha differs. -/
def updatedKeys (old new : List (Key × Resource)) : List Key :=
  (new.filter fun pr =>
    match lookupKey old pr.1 with
    | none => true
    | some oldR => decide (pr.2.sha ≠ oldR.sha)).map Prod.fst

/-- The keys checkAndUpdate collects as removed: keys of the old snapshot
absent from the new data. -/
def removedKeys (old new : List (Key × Resource)) : List Key :=
  (old.map Prod.fst).filter fun k => (lookupKey new k).isNone

/-- checkAndUpdate of fsstore2, as a pure function of the old snapshot and
the freshly read data. Returns the snapshot kept for the next tick and the
events sent on the watch channel (when the watch context is live). When
nothing changed, the old snapshot is kept and no events are sent. -/
def checkAndUpdate (old new : List (Key × Resource)) :
    List (Key × Resource) × List BackendEvent :=
  let updated := updatedKeys old new
  let removed := removedKeys old new
  if updated.isEmpty && removed.isEmpty then
    (old, [])
  else
    (new,
      (updated.map fun k =>
        { key := k, etype := ChangeType.update,
          value := (lookupKey new k).map fun r =>
            { metadata := r.metadata, spec := r.spec } })
      ++ removed.map fun k =>
        { key := k, etype := ChangeType.delete, value := none })

/-! ## Expression-language match builtin

The implementation of the match builtin lives in the expression runtime,
which is not among the sources (only its test, evaluator_test.go, is). It
is therefore modelled from the spec. -/

/-- Go strings.HasPrefix over the character lists of the strings. -/
def goHasPrefix : List Char → List Char → Bool
  | _, [] => true
  | [], _ :: _ => false
  | c :: s, d :: p => decide (c = d) && goHasPrefix s p

/-- Go strings.HasSuffix over the character lists of the strings. -/
def goHasSuffix (s p : List Char) : Bool :=
  goHasPrefix s.reverse p.reverse

/-- Modelled from the spec: the match builtin of the expression language
(its implementation is not among the sources; only evaluator_test.go is).
The spec: match(s, p) is true iff p equals s, or p starts with a star and
the remainder is a suffix of s, or p ends with a star and the remainder is
a prefix of s. -/
def matchWildcard (str pat : String) : Bool :=
  decide (pat = str)
  || (decide (pat.data.head? = some '*') && goHasSuffix str.data (pat.data.drop 1))
  || (decide (pat.data.getLast? = some '*') && goHasPrefix str.data pat.data.dropLast)

/-! ## Status model

pkg/status is not among the sources; modelled from the spec: a status is a
code plus a message, OK is code 0, handler errors surface as INTERNAL
(code 13), malformed input as INVALID_ARGUMENT (code 3). -/

/-- Modelled from the spec: rpc.Status as used by the server. -/
structure Status where
  code : Int
  message : String
deriving DecidableEq, Repr

/-- Modelled from the spec: status.OK. -/
def statusOK : Status := { code := 0, message := "" }

/-- Modelled from the spec: status.IsOK tests for code 0. -/
def IsOK (s : Status) : Bool := s.code == 0

/-- Modelled from the spec: status.WithError wraps an error as an INTERNAL
status carrying its message. -/
def statusWithError (e : String) : Status := { code := 13, message := e }

/-- Modelled from the spec: the INVALID_ARGUMENT status produced for
malformed request attributes. -/
def invalidArgStatus (e : String) : Status := { code := 3, message := e }

/-! ## gRPC server: Check and its quota paths (pkg/api/grpcServer.go) -/

/-- defaultValidDuration of grpcServer.go: 10 seconds, in nanoseconds as a
Go time.Duration. -/
def defaultValidDuration : Int := 10 * 1000000000

/-- defaultValidUseCount of grpcServer.go. -/
def defaultValidUseCount : Int := 200

/-- adapter.CheckResult as used by the server: a status plus validity. -/
structure CheckResult where
  status : Status
  validDuration : Int
  validUseCount : Int
deriving DecidableEq, Repr

/-- checkOk of grpcServer.go: the result used when no checks were
performed. -/
def checkOk : CheckResult :=
  { status := statusOK, validDuration := defaultValidDuration,
    validUseCount := defaultValidUseCount }

/-- aspect.QuotaMethodArgs: the arguments forwarded to the quota
dispatchers. -/
structure QuotaMethodArgs where
  quota : String
  amount : Int
  deduplicationID : String
  bestEffort : Bool
deriving DecidableEq, Repr

/-- The per-quota parameters of a CheckRequest (mixerpb quota params). -/
structure QuotaSpec where
  amount : Int
  bestEffort : Bool
deriving DecidableEq, Repr

/-- The response of the new-path dispatcher (Amount, ValidDuration). -/
structure QuotaResponse where
  amount : Int
  validDuration : Int
deriving DecidableEq, Repr

/-- aspect.QuotaMethodResp of the legacy dispatcher (Amount, Expiration). -/
structure QuotaMethodResp where
  amount : Int
  expiration : Int
deriving DecidableEq, Repr

/-- mixerpb.CheckResponse_QuotaResult (the referenced-attribute bookkeeping
is a bag-level side channel and is not modelled). -/
structure CheckResponseQuotaResult where
  grantedAmount : Int
  validDuration : Int
deriving DecidableEq, Repr

/-- The QuotaMethodArgs the Check loop builds for one named quota: the
forwarded DeduplicationID is the request id concatenated with the name. -/
def mkQuotaArgs (dedupId name : String) (param : QuotaSpec) : QuotaMethodArgs :=
  { quota := name, amount := param.amount,
    deduplicationID := dedupId ++ name, bestEffort := param.bestEffort }

/-- The quota function of grpcServer.go (new path): nil dispatcher means
(nil, nil); a dispatcher error is returned; a nil response maps to ok-none;
otherwise the response is converted. The runtime dispatcher itself is
external and passed as the newD oracle. -/
def quota (hasD : Bool)
    (newD : QuotaMethodArgs → Except String (Option QuotaResponse))
    (qma : QuotaMethodArgs) : Except String (Option CheckResponseQuotaResult) :=
  if hasD then
    match newD qma with
    | .error e => .error e
    | .ok none => .ok none
    | .ok (some qmr) =>
      .ok (some { grantedAmount := qmr.amount, validDuration := qmr.validDuration })
  else
    .ok none

/-- The quotaOld function of grpcServer.go (legacy path): on a non-OK
status with code RESOURCE_EXHAUSTED (8) the response is replaced by a zero
grant with the default duration; a nil response maps to none. The aspect
dispatcher is external and passed as the oldD oracle. -/
def quotaOld (oldD : QuotaMethodArgs → Option QuotaMethodResp × Status)
    (qma : QuotaMethodArgs) : Option CheckResponseQuotaResult :=
  let r := oldD qma
  let qmr :=
    if IsOK r.2 then r.1
    else if r.2.code == 8 then
      some { amount := 0, expiration := defaultValidDuration }
    else r.1
  match qmr with
  | none => none
  | some q => some { grantedAmount := q.amount, validDuration := q.expiration }

/-- The quota loop of grpcServer.Check (lines 182 to 215), iterating the
named quotas in the given order. Returns the error status when some new
path dispatch fails (the loop breaks there), the accumulated per-name
results, the trace of args dispatched on the new path, and the trace of
args dispatched on the legacy fallback. -/
def quotaLoop (hasD : Bool)
    (newD : QuotaMethodArgs → Except String (Option QuotaResponse))
    (oldD : QuotaMethodArgs → Option QuotaMethodResp × Status)
    (dedupId : String) :
    List (String × QuotaSpec) →
    Option Status × List (String × CheckResponseQuotaResult)
      × List QuotaMethodArgs × List QuotaMethodArgs
  | [] => (none, [], [], [])
  | (name, param) :: rest =>
    let qma := mkQuotaArgs dedupId name param
    match quota hasD newD qma with
    | .error e => (some (statusWithError e), [], [qma], [])
    | .ok qr0 =>
      let fb : Option CheckResponseQuotaResult × List QuotaMethodArgs :=
        match qr0 with
        | some q => (some q, [])
        | none => (quotaOld oldD qma, [qma])
      let qr := fb.1.getD
        { grantedAmount := param.amount, validDuration := defaultValidDuration }
      let next := quotaLoop hasD newD oldD dedupId rest
      (next.1, (name, qr) :: next.2.1,
        (if hasD then [qma] else []) ++ next.2.2.1, fb.2 ++ next.2.2.2)

/-- The external dispatch behavior one Check call observes: the preprocess
outcome, the runtime dispatcher Check outcome (result, error), the aspect
dispatcher Check outcome, and the two quota dispatchers. -/
structure Dispatch where
  preprocess : Status
  check2 : Option CheckResult × Option String
  aspectCheck : Status
  newQuota : QuotaMethodArgs → Except String (Option QuotaResponse)
  oldQuota : QuotaMethodArgs → Option QuotaMethodResp × Status

/-- The part of a CheckRequest the quota phase reads: the named quotas in
iteration order and the DeduplicationId. Attribute contents are consumed
by the dispatchers, which are abstracted as oracles. -/
structure CheckRequest where
  quotas : List (String × QuotaSpec)
  deduplicationId : String

/-- Precondition section of a CheckResponse. -/
structure Precondition where
  status : Status
  validDuration : Int
  validUseCount : Int
deriving DecidableEq, Repr

/-- CheckResponse: the precondition and the quota results (none models the
nil Quotas map of a response whose quota phase never ran). -/
structure CheckResponse where
  precondition : Precondition
  quotas : Option (List (String × CheckResponseQuotaResult))
deriving DecidableEq, Repr

/-- The merged precondition front end of grpcServer.Check (lines 118 to
168): the initial 5 second validity, the runtime dispatcher result (out2,
with checkOk substituted when no checks ran), the aspect check, and the
merge preferring a failing out2. Returns the merged status and the
validity actually placed in the response. -/
def checkFrontEnd (hasD : Bool) (d : Dispatch) : Status × Int × Int :=
  let init : Int × Int := (5 * 1000000000, 10000)
  let step :=
    if hasD then
      let out2a :=
        match d.check2.2 with
        | some e => statusWithError e
        | none => statusOK
      match d.check2.1 with
      | none => (out2a, (checkOk.validDuration, checkOk.validUseCount))
      | some cr => (cr.status, (cr.validDuration, cr.validUseCount))
    else (statusOK, init)
  let out := if IsOK step.1 then d.aspectCheck else step.1
  (out, step.2.1, step.2.2)

/-- grpcServer.Check as a function of the request and the observed
dispatch behavior. A preprocess failure returns the gRPC error (no
response). Otherwise the precondition is the merged front-end status; the
quota loop runs only when that status is OK and the request names quotas,
and may replace the status with a quota dispatch error. Returns the
response together with the new-path and legacy-path quota dispatch
traces. -/
def CheckModel (hasD : Bool) (d : Dispatch) (req : CheckRequest) :
    Except Status (CheckResponse × List QuotaMethodArgs × List QuotaMethodArgs) :=
  if IsOK d.preprocess then
    let fe := checkFrontEnd hasD d
    if IsOK fe.1 && !req.quotas.isEmpty then
      let q := quotaLoop hasD d.newQuota d.oldQuota req.deduplicationId req.quotas
      .ok ({ precondition :=
               { status := match q.1 with | some st => st | none => fe.1,
                 validDuration := fe.2.1, validUseCount := fe.2.2 },
             quotas := some q.2.1 }, q.2.2.1, q.2.2.2)
    else
      .ok ({ precondition :=
               { status := fe.1, validDuration := fe.2.1, validUseCount := fe.2.2 },
             quotas := none }, [], [])
  else
    .error d.preprocess

/-! ## Denier adapter (adapter/denier/denier.go) -/

/-- HandleListEntry of the denier adapter: returns the configured status
with a 1000 second validity and 1000 uses. -/
def handleListEntry (configured : Status) : CheckResult :=
  { status := configured, validDuration := 1000 * 1000000000,
    validUseCount := 1000 }

/-- The denier DefaultConfig status of GetInfo: FAILED_PRECONDITION,
code 9. -/
def denierDefaultStatus : Status := { code := 9, message := "" }

/-- The precondition code TestDenierAdapter (test/testenv/testenv_test.go,
line 128) asserts for the end-to-end deny scenario. -/
def testDenierAdapterExpectedCode : Int := 7

/-- The dispatch behavior of a server whose single matching rule routes to
a denier listentry handler with the given configured status: the runtime
dispatcher Check returns HandleListEntry of that status, preprocess and
the aspect path are clean, and no quota handler is configured. -/
def denierDispatch (configured : Status) : Dispatch :=
  { preprocess := statusOK,
    check2 := (some (handleListEntry configured), none),
    aspectCheck := statusOK,
    newQuota := fun _ => Except.ok none,
    oldQuota := fun _ => (none, statusOK) }

/-! ## gRPC server: Report (pkg/api/grpcServer.go) -/

/-- The externally visible work of a Report call, for counting handler
dispatches and bag construction. -/
inductive ReportEvent where
  | bagBuilt
  | preprocessDispatch (i : Nat)
  | report2Dispatch (i : Nat)
  | reportDispatch (i : Nat)
deriving DecidableEq, Repr

/-- The external dispatch behavior one Report call observes, per attribute
message index: the proto-delta bag update outcome, the preprocess outcome,
the runtime dispatcher Report outcome and the aspect Report outcome. -/
structure ReportDispatchOracle where
  updateBag : Nat → Except String Unit
  preprocess : Nat → Status
  report2 : Nat → Option String
  aspectReport : Nat → Status

/-- One attributes message of a ReportRequest (contents are consumed by
the bags and dispatchers, abstracted as oracles). -/
structure AttrMsg where
  words : List String
deriving DecidableEq, Repr

/-- The part of a ReportRequest the server control flow reads. -/
structure ReportRequest where
  attributes : List AttrMsg
deriving DecidableEq, Repr

/-- The empty ReportResponse (the reportResp variable of grpcServer.go). -/
structure ReportResponse where
deriving DecidableEq, Repr

/-- reportResp of grpcServer.go. -/
def reportResp : ReportResponse := {}

/-- One iteration of the Report loop at index i: the delta bag update (for
i positive), the preprocess dispatch, then the runtime and aspect report
dispatches with the failing runtime status preferred. Returns the status
that breaks the loop (if any) and the events of the iteration. -/
def reportStep (hasD : Bool) (d : ReportDispatchOracle) (i : Nat) :
    Option Status × List ReportEvent :=
  match (if i > 0 then d.updateBag i else Except.ok ()) with
  | .error e => (some (invalidArgStatus e), [])
  | .ok _ =>
    let pre := d.preprocess i
    if IsOK pre then
      let stage2 :=
        if hasD then
          ((match d.report2 i with
            | some e => statusWithError e
            | none => statusOK), [ReportEvent.report2Dispatch i])
        else (statusOK, [])
      let out := d.aspectReport i
      let merged := if IsOK stage2.1 then out else stage2.1
      ((if IsOK merged then none else some merged),
        ReportEvent.preprocessDispatch i :: stage2.2 ++ [ReportEvent.reportDispatch i])
    else
      (some pre, [ReportEvent.preprocessDispatch i])

/-- The Report loop over the attribute message indices, stopping at the
first breaking status. -/
def reportLoop (hasD : Bool) (d : ReportDispatchOracle) :
    List Nat → Option Status × List ReportEvent
  | [] => (none, [])
  | i :: rest =>
    match reportStep hasD d i with
    | (some st, evs) => (some st, evs)
    | (none, evs) =>
      let next := reportLoop hasD d rest
      (next.1, evs ++ next.2)

/-- grpcServer.Report as a function of the request and the observed
dispatch behavior: an empty attribute list returns the shared empty
response immediately, before any bag is built; otherwise the proto bag and
its mutable children are built and the loop runs over every attribute
message. -/
def ReportModel (hasD : Bool) (d : ReportDispatchOracle) (req : ReportRequest) :
    Except Status ReportResponse × List ReportEvent :=
  if req.attributes.isEmpty then
    (.ok reportResp, [])
  else
    let r := reportLoop hasD d (List.range req.attributes.length)
    ((match r.1 with | some st => .error st | none => .ok reportResp),
      ReportEvent.bagBuilt :: r.2)

/-! ## Predicates used in the claim statements and concrete inputs -/

/-- A key receives an Update event on a tick: it is present in the new
data and either absent from the old snapshot or carrying a different sha. -/
def condUpdate (old new : List (Key × Resource)) (k : Key) : Bool :=
  match lookupKey new k with
  | none => false
  | some r =>
    match lookupKey old k with
    | none => true
    | some o => decide (r.sha ≠ o.sha)

/-- A key receives a Delete event on a tick: it is present in the old
snapshot and absent from the new data. -/
def condDelete (old new : List (Key × Resource)) (k : Key) : Bool :=
  (lookupKey old k).isSome && (lookupKey new k).isNone

/-- A dispatch state whose preprocess and check paths are clean and whose
quota dispatchers know no quota. -/
def cleanDispatch : Dispatch :=
  { preprocess := statusOK,
    check2 := (none, none),
    aspectCheck := statusOK,
    newQuota := fun _ => Except.ok none,
    oldQuota := fun _ => (none, statusOK) }

/-- A dispatch state whose new quota path fails for the quota named bad. -/
def errDispatch : Dispatch :=
  { cleanDispatch with
    newQuota := fun q => if q.quota = "bad" then Except.error "boom" else Except.ok none }

/-- A dispatch state whose aspect check path denies the request. -/
def failedCheckDispatch : Dispatch :=
  { cleanDispatch with aspectCheck := { code := 7, message := "denied" } }

/-- A dispatch state whose new quota path grants one unit. -/
def grantDispatch : Dispatch :=
  { cleanDispatch with
    newQuota := fun _ => Except.ok (some { amount := 1, validDuration := 5 }) }

/-- A clean report dispatch oracle. -/
def cleanReportOracle : ReportDispatchOracle :=
  { updateBag := fun _ => Except.ok (),
    preprocess := fun _ => statusOK,
    report2 := fun _ => none,
    aspectReport := fun _ => statusOK }

/-- A concrete key for the config-store scenarios. -/
def k1 : Key := { kind := "rule", ns := "ns1", name := "r1" }

/-- A concrete resource for k1 in the previous snapshot. -/
def r1 : Resource :=
  { kind := "rule", apiVersion := "v1", metadata := { ns := "ns1", name := "r1" },
    spec := none, sha := 42 }

/-- A second concrete key, for a handler resource. -/
def k2 : Key := { kind := "handler", ns := "ns1", name := "h1" }

/-- A concrete resource for k2. -/
def r2 : Resource :=
  { kind := "handler", apiVersion := "v1", metadata := { ns := "ns1", name := "h1" },
    spec := none, sha := 7 }

/-- A third concrete key, for a second rule. -/
def k3 : Key := { kind := "rule", ns := "ns2", name := "r2" }

/-- A concrete resource for k3. -/
def r3 : Resource :=
  { kind := "rule", apiVersion := "v1", metadata := { ns := "ns2", name := "r2" },
    spec := none, sha := 9 }

/-- A concrete previous snapshot: the rule and the handler. -/
def oldSnapshot : List (Key × Resource) := [(k1, r1), (k2, r2)]

/-- A concrete new read: the rule rewritten with a different hash, the
handler file deleted, and a second rule appearing. -/
def newSnapshot : List (Key × Resource) := [(k1, { r1 with sha := 43 }), (k3, r3)]

/-- A non-empty resource missing its namespace, for the parse rejection
scenario. -/
def badResource : Resource :=
  { kind := "rule", apiVersion := "v1", metadata := { ns := "", name := "r1" },
    spec := none, sha := 0 }

/-! ## Lemmas about the match builtin -/

theorem goHasPrefix_iff (p : List Char) : ∀ s : List Char,
    goHasPrefix s p = true ↔ ∃ t, s = p ++ t := by
  induction p with
  | nil => intro s; simp [goHasPrefix]
  | cons d p ih =>
    intro s
    cases s with
    | nil => simp [goHasPrefix]
    | cons c s =>
      simp only [goHasPrefix, Bool.and_eq_true, decide_eq_true_eq, ih,
        List.cons_append, List.cons.injEq]
      constructor
      · rintro ⟨h1, t, h2⟩
        exact ⟨t, h1, h2⟩
      · rintro ⟨t, h1, h2⟩
        exact ⟨h1, t, h2⟩

theorem goHasSuffix_iff (s p : List Char) :
    goHasSuffix s p = true ↔ ∃ t, s = t ++ p := by
  unfold goHasSuffix
  rw [goHasPrefix_iff]
  constructor
  · rintro ⟨t, ht⟩
    refine ⟨t.reverse, ?_⟩
    have h2 := congrArg List.reverse ht
    simpa using h2
  · rintro ⟨t, rfl⟩
    exact ⟨t.reverse, by simp⟩

/-- C6: matchWildcard returns true iff the pattern equals the string, or
the pattern starts with a star and the remainder is a suffix of the
string, or the pattern ends with a star and the remainder is a prefix of
the string; in particular the three concrete cases of the spec evaluate
as listed. -/
theorem match_wildcard_spec :
    (∀ s p : String, matchWildcard s p = true ↔
      (p = s
        ∨ (p.data.head? = some '*' ∧ ∃ t : List Char, s.data = t ++ p.data.drop 1)
        ∨ (p.data.getLast? = some '*' ∧ ∃ t : List Char, s.data = p.data.dropLast ++ t)))
    ∧ matchWildcard "svc1.ns1.cluster" "*.ns1.cluster" = true
    ∧ matchWildcard "svc1.ns1.cluster" "*.ns1.cluster1" = false
    ∧ matchWildcard "ns1.svc.local" "ns1.*" = true := by
  refine ⟨?_, by decide, by decide, by decide⟩
  intro s p
  simp only [matchWildcard, Bool.or_eq_true, Bool.and_eq_true, decide_eq_true_eq,
    goHasPrefix_iff, goHasSuffix_iff]
  tauto

/-! ## Lemmas about snapshot lookups and the diff -/

theorem lookupKey_eq_some_mem : ∀ {l : List (Key × Resource)} {k : Key} {r : Resource},
    lookupKey l k = some r → (k, r) ∈ l := by
  intro l
  induction l with
  | nil => intro k r h; simp [lookupKey] at h
  | cons pr t ih =>
    intro k r h
    obtain ⟨k0, r0⟩ := pr
    by_cases hk : k0 = k
    · subst hk
      simp only [lookupKey, if_true, eq_self_iff_true, Option.some.injEq] at h
      subst h
      exact List.mem_cons_self _ _
    · simp only [lookupKey, if_neg hk] at h
      exact List.mem_cons_of_mem _ (ih h)

theorem mem_lookupKey_eq_some : ∀ {l : List (Key × Resource)} {k : Key} {r : Resource},
    (l.map Prod.fst).Nodup → (k, r) ∈ l → lookupKey l k = some r := by
  intro l
  induction l with
  | nil => intro k r _ h; simp at h
  | cons pr t ih =>
    intro k r hnd h
    obtain ⟨k0, r0⟩ := pr
    rw [List.map_cons, List.nodup_cons] at hnd
    rcases List.mem_cons.mp h with heq | htail
    · injection heq with hk hr
      subst hk; subst hr
      simp [lookupKey]
    · have hk : k0 ≠ k := by
        intro hkk
        subst hkk
        have hmem : k0 ∈ List.map Prod.fst t := List.mem_map.mpr ⟨(k0, r), htail, rfl⟩
        exact hnd.1 hmem
      simp only [lookupKey, if_neg hk]
      exact ih hnd.2 htail

theorem lookupKey_eq_none_iff : ∀ {l : List (Key × Resource)} {k : Key},
    lookupKey l k = none ↔ k ∉ l.map Prod.fst := by
  intro l
  induction l with
  | nil => intro k; simp [lookupKey]
  | cons pr t ih =>
    intro k
    obtain ⟨k0, r0⟩ := pr
    by_cases hk : k0 = k
    · subst hk
      simp [lookupKey]
    · simp [lookupKey, if_neg hk, ih, List.mem_cons, Ne.symm hk]

theorem mem_map_fst_iff_lookupKey {l : List (Key × Resource)} {k : Key} :
    k ∈ l.map Prod.fst ↔ (lookupKey l k).isSome := by
  constructor
  · intro h
    by_contra hns
    rw [Option.not_isSome_iff_eq_none] at hns
    exact (lookupKey_eq_none_iff.mp hns) h
  · intro h
    by_contra hmem
    rw [lookupKey_eq_none_iff.mpr hmem] at h
    simp at h

theorem mem_updatedKeys {old new : List (Key × Resource)} {k : Key}
    (hn : (new.map Prod.fst).Nodup) :
    k ∈ updatedKeys old new ↔ condUpdate old new k = true := by
  unfold updatedKeys condUpdate
  constructor
  · intro h
    obtain ⟨pr, hpr, hfst⟩ := List.mem_map.mp h
    obtain ⟨hmem, hq⟩ := List.mem_filter.mp hpr
    obtain ⟨kk, rr⟩ := pr
    cases hfst
    rw [mem_lookupKey_eq_some hn hmem]
    exact hq
  · intro h
    cases hl : lookupKey new k with
    | none => rw [hl] at h; simp at h
    | some r =>
      rw [hl] at h
      refine List.mem_map.mpr ⟨(k, r), List.mem_filter.mpr ⟨lookupKey_eq_some_mem hl, ?_⟩, rfl⟩
      exact h

theorem mem_removedKeys {old new : List (Key × Resource)} {k : Key} :
    k ∈ removedKeys old new ↔ condDelete old new k = true := by
  unfold removedKeys condDelete
  rw [List.mem_filter, mem_map_fst_iff_lookupKey, Bool.and_eq_true]

theorem nodup_updatedKeys (old new : List (Key × Resource))
    (hn : (new.map Prod.fst).Nodup) : (updatedKeys old new).Nodup := by
  unfold updatedKeys
  exact hn.sublist ((new.filter_sublist).map Prod.fst)

theorem nodup_removedKeys (old new : List (Key × Resource))
    (ho : (old.map Prod.fst).Nodup) : (removedKeys old new).Nodup :=
  ho.filter _

/-! ## C1: parse failures and Delete events -/

/-- C1 counterexample: a snapshot holding one rule resource whose file
content fails to unmarshal on the next tick. checkAndUpdate emits exactly
a Delete event for that key, so a parse failure does cause a Delete,
contradicting the claim. -/
theorem parse_failure_delete_counterexample :
    (checkAndUpdate [(k1, r1)]
        (readFiles ["rule"] (parseFile [(Except.error "unmarshal failure", 0)]))).2
      = [{ key := k1, etype := ChangeType.delete, value := none }] := by
  decide

/-- C1 (amended): a document that fails to parse is skipped from the
parsed resource list; consequently a key of the previous snapshot whose
document no longer parses is absent from the new data, and checkAndUpdate
emits a Delete event for it. -/
theorem parse_failure_emits_delete :
    (∀ (e : String) (h : Nat), parseFile [(Except.error e, h)] = [])
    ∧ (∀ (old new : List (Key × Resource)) (k : Key) (r : Resource),
        lookupKey old k = some r → lookupKey new k = none →
        ({ key := k, etype := ChangeType.delete, value := none } : BackendEvent)
          ∈ (checkAndUpdate old new).2) := by
  constructor
  · intro e h
    rfl
  · intro old new k r hold hnew
    have hkmem : k ∈ old.map Prod.fst :=
      List.mem_map.mpr ⟨(k, r), lookupKey_eq_some_mem hold, rfl⟩
    have hrem : k ∈ removedKeys old new := by
      unfold removedKeys
      rw [List.mem_filter]
      exact ⟨hkmem, by simp [hnew]⟩
    have hne : ((updatedKeys old new).isEmpty && (removedKeys old new).isEmpty) = false := by
      cases hrm : removedKeys old new with
      | nil => rw [hrm] at hrem; simp at hrem
      | cons a t => simp [hrm]
    unfold checkAndUpdate
    simp only [hne, Bool.false_eq_true, if_false]
    exact List.mem_append_right _ (List.mem_map_of_mem _ hrem)

/-- Witness for the amended C1 at a concrete previous snapshot and a
concrete unparseable document. -/
theorem parse_failure_emits_delete_witness :
    parseFile [(Except.error "unmarshal failure", 3)] = []
    ∧ ({ key := k1, etype := ChangeType.delete, value := none } : BackendEvent)
        ∈ (checkAndUpdate [(k1, r1)] []).2 :=
  ⟨parse_failure_emits_delete.1 "unmarshal failure" 3,
   parse_failure_emits_delete.2 [(k1, r1)] [] k1 r1 (by decide) rfl⟩

/-! ## C5: the diff emits exactly one event per changed key -/

theorem countP_map_list {α β : Type} (p : β → Bool) (f : α → β) (l : List α) :
    (l.map f).countP p = l.countP fun a => p (f a) := by
  induction l with
  | nil => rfl
  | cons a t ih => simp [List.countP_cons, ih]

theorem countP_eq_boole_of_nodup {l : List Key} (hnd : l.Nodup) (k : Key) :
    (l.countP fun x => decide (x = k)) = if k ∈ l then 1 else 0 := by
  induction l with
  | nil => simp
  | cons a t ih =>
    rw [List.countP_cons]
    rcases List.nodup_cons.mp hnd with ⟨ha, ht⟩
    by_cases hk : a = k
    · subst hk
      have hnt : a ∉ t := ha
      rw [ih ht]
      simp [hnt]
    · have hmem : k ∈ a :: t ↔ k ∈ t := by
        rw [List.mem_cons]
        constructor
        · rintro (h | h)
          · exact absurd h.symm hk
          · exact h
        · exact Or.inr
      rw [ih ht]
      simp [hk, hmem]

/-- C5: on a tick the store emits exactly one Update event for every key
that is new or whose sha changed, exactly one Delete event for every key
no longer present, and when no key is new, changed or removed it emits no
events and keeps the old snapshot. -/
theorem fsstore_diff_events (old new : List (Key × Resource))
    (ho : (old.map Prod.fst).Nodup) (hn : (new.map Prod.fst).Nodup) :
    (∀ k, ((checkAndUpdate old new).2.countP
        fun e => decide (e.key = k) && decide (e.etype = ChangeType.update))
      = (if condUpdate old new k = true then 1 else 0))
    ∧ (∀ k, ((checkAndUpdate old new).2.countP
        fun e => decide (e.key = k) && decide (e.etype = ChangeType.delete))
      = (if condDelete old new k = true then 1 else 0))
    ∧ ((∀ k, condUpdate old new k = false ∧ condDelete old new k = false) →
        checkAndUpdate old new = (old, [])) := by
  by_cases hempty : ((updatedKeys old new).isEmpty && (removedKeys old new).isEmpty) = true
  · have hu : updatedKeys old new = [] := by
      have := (Bool.and_eq_true _ _).mp hempty
      exact List.isEmpty_iff.mp this.1
    have hr : removedKeys old new = [] := by
      have := (Bool.and_eq_true _ _).mp hempty
      exact List.isEmpty_iff.mp this.2
    have hcu : checkAndUpdate old new = (old, []) := by
      unfold checkAndUpdate
      simp only [hempty, if_true]
    refine ⟨?_, ?_, fun _ => hcu⟩
    · intro k
      rw [hcu]
      have hc : condUpdate old new k = false := by
        by_contra hcc
        rw [Bool.not_eq_false] at hcc
        have := (mem_updatedKeys hn).mpr hcc
        rw [hu] at this
        simp at this
      simp [hc]
    · intro k
      rw [hcu]
      have hc : condDelete old new k = false := by
        by_contra hcc
        rw [Bool.not_eq_false] at hcc
        have := mem_removedKeys.mpr hcc
        rw [hr] at this
        simp at this
      simp [hc]
  · have hevs : (checkAndUpdate old new).2
        = ((updatedKeys old new).map fun k =>
            { key := k, etype := ChangeType.update,
              value := (lookupKey new k).map fun r =>
                { metadata := r.metadata, spec := r.spec } })
          ++ (removedKeys old new).map fun k =>
            { key := k, etype := ChangeType.delete, value := none } := by
      unfold checkAndUpdate
      rw [Bool.not_eq_true] at hempty
      simp only [hempty, Bool.false_eq_true, if_false]
    refine ⟨?_, ?_, ?_⟩
    · intro k
      rw [hevs, List.countP_append, countP_map_list, countP_map_list]
      have h2 : ((removedKeys old new).countP fun k0 =>
          decide ((⟨k0, ChangeType.delete, none⟩ : BackendEvent).key = k)
            && decide ((⟨k0, ChangeType.delete, none⟩ : BackendEvent).etype = ChangeType.update)) = 0 := by
        simp
      have h1 : ((updatedKeys old new).countP fun k0 =>
          decide (k0 = k) && decide (ChangeType.update = ChangeType.update))
          = if k ∈ updatedKeys old new then 1 else 0 := by
        have hfn : (fun k0 => decide (k0 = k) && decide (ChangeType.update = ChangeType.update))
            = fun k0 : Key => decide (k0 = k) := by
          funext k0
          simp
        rw [hfn]
        exact countP_eq_boole_of_nodup (nodup_updatedKeys old new hn) k
      rw [h1, h2, Nat.add_zero, if_congr (mem_updatedKeys hn) rfl rfl]
    · intro k
      rw [hevs, List.countP_append, countP_map_list, countP_map_list]
      have h2 : ((updatedKeys old new).countP fun k0 =>
          decide (k0 = k) && decide (ChangeType.update = ChangeType.delete)) = 0 := by
        simp
      have h1 : ((removedKeys old new).countP fun k0 =>
          decide (k0 = k) && decide (ChangeType.delete = ChangeType.delete))
          = if k ∈ removedKeys old new then 1 else 0 := by
        have hfn : (fun k0 => decide (k0 = k) && decide (ChangeType.delete = ChangeType.delete))
            = fun k0 : Key => decide (k0 = k) := by
          funext k0
          simp
        rw [hfn]
        exact countP_eq_boole_of_nodup (nodup_removedKeys old new ho) k
      rw [h1, h2, Nat.zero_add, if_congr mem_removedKeys rfl rfl]
    · intro hnone
      exfalso
      apply hempty
      have hu : updatedKeys old new = [] := by
        rw [List.eq_nil_iff_forall_not_mem]
        intro k hk
        have := (mem_updatedKeys hn).mp hk
        rw [(hnone k).1] at this
        exact Bool.false_ne_true this
      have hr : removedKeys old new = [] := by
        rw [List.eq_nil_iff_forall_not_mem]
        intro k hk
        have := mem_removedKeys.mp hk
        rw [(hnone k).2] at this
        exact Bool.false_ne_true this
      rw [hu, hr]
      rfl

/-- Witness for C5: on the concrete snapshots the rewritten rule receives
exactly one Update event and the deleted handler exactly one Delete
event. -/
theorem fsstore_diff_events_witness :
    ((checkAndUpdate oldSnapshot newSnapshot).2.countP
        fun e => decide (e.key = k1) && decide (e.etype = ChangeType.update)) = 1
    ∧ ((checkAndUpdate oldSnapshot newSnapshot).2.countP
        fun e => decide (e.key = k2) && decide (e.etype = ChangeType.delete)) = 1 :=
  ⟨((fsstore_diff_events oldSnapshot newSnapshot (by decide) (by decide)).1 k1).trans
      (by decide),
   ((fsstore_diff_events oldSnapshot newSnapshot (by decide) (by decide)).2.1 k2).trans
      (by decide)⟩

/-! ## C8: empty and key-less documents never reach the resource list -/

theorem parseChunk_fields {u : Except String Resource} {s : Nat} {r : Resource}
    (h : parseChunk u s = Except.ok (some r)) :
    r.kind ≠ "" ∧ r.metadata.ns ≠ "" ∧ r.metadata.name ≠ "" := by
  rcases u with e | r0
  · simp [parseChunk] at h
  · simp only [parseChunk] at h
    by_cases hemp : empty r0 = true
    · rw [if_pos hemp] at h
      simp at h
    · rw [if_neg hemp] at h
      by_cases hmiss : r0.kind = "" ∨ r0.metadata.ns = "" ∨ r0.metadata.name = ""
      · rw [if_pos hmiss] at h
        simp at h
      · rw [if_neg hmiss] at h
        simp only [Except.ok.injEq, Option.some.injEq] at h
        push_neg at hmiss
        subst h
        exact hmiss

/-- C8: an empty document (one whose unmarshal yields the zero resource)
is skipped without error; a non-empty document missing Kind, Namespace or
Name is rejected with a parse error; and every resource parseFile returns
carries a non-empty Kind, Namespace and Name, so neither kind of document
appears in the list. -/
theorem parse_chunk_rejects :
    (∀ shaOfChunk, parseChunk (Except.ok emptyResource) shaOfChunk = Except.ok none)
    ∧ (∀ (r : Resource) (shaOfChunk : Nat), r ≠ emptyResource →
        (r.kind = "" ∨ r.metadata.ns = "" ∨ r.metadata.name = "") →
        ∃ e, parseChunk (Except.ok r) shaOfChunk = Except.error e)
    ∧ (∀ (chunks : List (Except String Resource × Nat)), ∀ r ∈ parseFile chunks,
        r.kind ≠ "" ∧ r.metadata.ns ≠ "" ∧ r.metadata.name ≠ "") := by
  refine ⟨?_, ?_, ?_⟩
  · intro shaOfChunk
    rfl
  · intro r shaOfChunk hne hmiss
    refine ⟨"key elements are empty", ?_⟩
    have hemp : empty r = false := by
      unfold empty
      simp [hne]
    simp only [parseChunk]
    rw [hemp]
    simp only [Bool.false_eq_true, if_false, if_pos hmiss]
  · intro chunks r hr
    obtain ⟨c, _, hc⟩ := List.mem_filterMap.mp hr
    rcases hp : parseChunk c.1 c.2 with e | or0
    · rw [hp] at hc
      simp at hc
    · rcases or0 with _ | r0
      · rw [hp] at hc
        simp at hc
      · rw [hp] at hc
        simp only [Option.some.injEq] at hc
        subst hc
        exact parseChunk_fields hp

/-- Witness for C8 at a concrete empty document, a concrete document
missing its namespace, and a concrete well-formed parse. -/
theorem parse_chunk_rejects_witness :
    parseChunk (Except.ok emptyResource) 5 = Except.ok none
    ∧ (∃ e, parseChunk (Except.ok badResource) 7 = Except.error e)
    ∧ (∀ r ∈ parseFile [(Except.ok r1, 3)], r.kind ≠ "") :=
  ⟨parse_chunk_rejects.1 5,
   parse_chunk_rejects.2.1 badResource 7 (by decide) (by decide),
   fun r hr => (parse_chunk_rejects.2.2 [(Except.ok r1, 3)] r hr).1⟩

/-! ## Lemmas about the quota loop -/

theorem quotaLoop_all_nil
    (newD : QuotaMethodArgs → Except String (Option QuotaResponse))
    (oldD : QuotaMethodArgs → Option QuotaMethodResp × Status)
    (dedupId : String)
    (hnew : ∀ qma, newD qma = Except.ok none)
    (hold : ∀ qma, oldD qma = (none, statusOK)) :
    ∀ l : List (String × QuotaSpec),
      quotaLoop true newD oldD dedupId l =
        (none,
         l.map fun e => (e.1,
           { grantedAmount := e.2.amount, validDuration := defaultValidDuration }),
         l.map fun e => mkQuotaArgs dedupId e.1 e.2,
         l.map fun e => mkQuotaArgs dedupId e.1 e.2) := by
  intro l
  induction l with
  | nil => rfl
  | cons e rest ih =>
    obtain ⟨name, param⟩ := e
    have hq : quota true newD (mkQuotaArgs dedupId name param) = Except.ok none := by
      unfold quota
      rw [hnew]
      rfl
    have hqo : quotaOld oldD (mkQuotaArgs dedupId name param) = none := by
      unfold quotaOld
      rw [hold]
      rfl
    simp only [quotaLoop, hq, hqo, ih]
    rfl

theorem quotaLoop_cons (hasD : Bool)
    (newD : QuotaMethodArgs → Except String (Option QuotaResponse))
    (oldD : QuotaMethodArgs → Option QuotaMethodResp × Status)
    (dedupId name : String) (param : QuotaSpec) (rest : List (String × QuotaSpec)) :
    quotaLoop hasD newD oldD dedupId ((name, param) :: rest) =
      (match quota hasD newD (mkQuotaArgs dedupId name param) with
       | .error e => (some (statusWithError e), [], [mkQuotaArgs dedupId name param], [])
       | .ok qr0 =>
         let fb : Option CheckResponseQuotaResult × List QuotaMethodArgs :=
           match qr0 with
           | some q => (some q, [])
           | none => (quotaOld oldD (mkQuotaArgs dedupId name param),
               [mkQuotaArgs dedupId name param])
         let qr := fb.1.getD
           { grantedAmount := param.amount, validDuration := defaultValidDuration }
         let next := quotaLoop hasD newD oldD dedupId rest
         (next.1, (name, qr) :: next.2.1,
           (if hasD then [mkQuotaArgs dedupId name param] else []) ++ next.2.2.1,
           fb.2 ++ next.2.2.2)) := rfl

theorem quotaLoop_error
    (newD : QuotaMethodArgs → Except String (Option QuotaResponse))
    (oldD : QuotaMethodArgs → Option QuotaMethodResp × Status)
    (dedupId : String) (name : String) (param : QuotaSpec)
    (post : List (String × QuotaSpec)) (err : String)
    (htgt : newD (mkQuotaArgs dedupId name param) = Except.error err) :
    ∀ pre : List (String × QuotaSpec),
      (∀ e ∈ pre, ∃ v, newD (mkQuotaArgs dedupId e.1 e.2) = Except.ok v) →
      ∃ res oldT,
        quotaLoop true newD oldD dedupId (pre ++ (name, param) :: post) =
          (some (statusWithError err), res,
           (pre.map fun e => mkQuotaArgs dedupId e.1 e.2)
             ++ [mkQuotaArgs dedupId name param], oldT)
        ∧ res.map Prod.fst = pre.map Prod.fst := by
  intro pre
  induction pre with
  | nil =>
    intro _
    have hq : quota true newD (mkQuotaArgs dedupId name param) = Except.error err := by
      unfold quota
      rw [htgt]
      rfl
    refine ⟨[], [], ?_, rfl⟩
    rw [List.nil_append, quotaLoop_cons, hq]
    rfl
  | cons e pre ih =>
    intro hpre
    obtain ⟨name0, param0⟩ := e
    obtain ⟨v, hv0⟩ := hpre (name0, param0) (List.mem_cons_self _ _)
    have hv : newD (mkQuotaArgs dedupId name0 param0) = Except.ok v := hv0
    obtain ⟨res, oldT, hloop, hfst⟩ := ih fun x hx => hpre x (List.mem_cons_of_mem _ hx)
    rw [List.cons_append, quotaLoop_cons]
    cases v with
    | none =>
      have hq : quota true newD (mkQuotaArgs dedupId name0 param0) = Except.ok none := by
        unfold quota
        rw [hv]
        rfl
      rw [hq, hloop]
      refine ⟨(name0, (quotaOld oldD (mkQuotaArgs dedupId name0 param0)).getD
          { grantedAmount := param0.amount, validDuration := defaultValidDuration }) :: res,
        mkQuotaArgs dedupId name0 param0 :: oldT, ?_, ?_⟩
      · rfl
      · simp only [List.map_cons, hfst]
    | some qmr =>
      have hq : quota true newD (mkQuotaArgs dedupId name0 param0) =
          Except.ok (some { grantedAmount := qmr.amount, validDuration := qmr.validDuration }) := by
        unfold quota
        rw [hv]
        rfl
      rw [hq, hloop]
      refine ⟨(name0,
          { grantedAmount := qmr.amount, validDuration := qmr.validDuration }) :: res,
        oldT, ?_, ?_⟩
      · rfl
      · simp only [List.map_cons, hfst]

theorem quotaLoop_single_trace
    (newD : QuotaMethodArgs → Except String (Option QuotaResponse))
    (oldD : QuotaMethodArgs → Option QuotaMethodResp × Status)
    (dedupId name : String) (param : QuotaSpec) :
    (quotaLoop true newD oldD dedupId [(name, param)]).2.2.1
      = [mkQuotaArgs dedupId name param] := by
  rcases hq : quota true newD (mkQuotaArgs dedupId name param) with e | qr0
  · simp only [quotaLoop, hq]
  · rcases qr0 with _ | q
    · simp only [quotaLoop, hq]
      rfl
    · simp only [quotaLoop, hq]
      rfl

/-! ## C3: quota fallback grants the requested amount -/

/-- C3: when the new quota path returns ok-none for every named quota the
server falls back to the legacy dispatcher for each of them (the legacy
trace covers every entry), and when that also yields nil each quota result
grants exactly the requested amount with the default 10 second
ValidDuration. -/
theorem quota_fallback_unlimited (d : Dispatch) (req : CheckRequest)
    (h1 : d.preprocess = statusOK)
    (h2 : d.check2 = (none, none))
    (h3 : d.aspectCheck = statusOK)
    (h4 : ∀ qma, d.newQuota qma = Except.ok none)
    (h5 : ∀ qma, d.oldQuota qma = (none, statusOK))
    (h6 : req.quotas ≠ []) :
    CheckModel true d req = Except.ok
      ({ precondition :=
           { status := statusOK,
             validDuration := defaultValidDuration,
             validUseCount := defaultValidUseCount },
         quotas := some (req.quotas.map fun e => (e.1,
           { grantedAmount := e.2.amount, validDuration := defaultValidDuration })) },
       req.quotas.map fun e => mkQuotaArgs req.deduplicationId e.1 e.2,
       req.quotas.map fun e => mkQuotaArgs req.deduplicationId e.1 e.2) := by
  have hfe : checkFrontEnd true d = (statusOK, defaultValidDuration, defaultValidUseCount) := by
    unfold checkFrontEnd
    rw [h2, h3]
    rfl
  have hne : req.quotas.isEmpty = false := by
    cases hq0 : req.quotas with
    | nil => exact absurd hq0 h6
    | cons a t => rfl
  have hloop := quotaLoop_all_nil d.newQuota d.oldQuota req.deduplicationId h4 h5 req.quotas
  unfold CheckModel
  rw [h1, hfe, hloop]
  simp only [hne]
  rfl

/-- Witness for C3 at a concrete clean dispatch state and a single named
quota. -/
theorem quota_fallback_unlimited_witness :
    CheckModel true cleanDispatch
        { quotas := [("q1", { amount := 7, bestEffort := false })],
          deduplicationId := "dd" }
      = Except.ok
        ({ precondition :=
             { status := statusOK,
               validDuration := defaultValidDuration,
               validUseCount := defaultValidUseCount },
           quotas := some [("q1",
             { grantedAmount := 7, validDuration := defaultValidDuration })] },
         [{ quota := "q1", amount := 7, deduplicationID := "ddq1", bestEffort := false }],
         [{ quota := "q1", amount := 7, deduplicationID := "ddq1", bestEffort := false }]) :=
  quota_fallback_unlimited cleanDispatch
    { quotas := [("q1", { amount := 7, bestEffort := false })], deduplicationId := "dd" }
    rfl rfl rfl (fun _ => rfl) (fun _ => rfl) (by decide)

/-! ## C4: a quota dispatch error fails the containing Check -/

/-- C4: when the new-path quota dispatch for some named quota returns an
error (and the earlier named quotas dispatched without error), the Check
response's precondition status is replaced by the error status, the new
path dispatched exactly the earlier quotas and the failing one, and the
result map holds only the earlier quotas: the remaining named quotas are
not processed. -/
theorem quota_error_fails_check (d : Dispatch) (req : CheckRequest)
    (pre post : List (String × QuotaSpec)) (name : String) (param : QuotaSpec)
    (err : String)
    (h1 : d.preprocess = statusOK)
    (h2 : d.check2 = (none, none))
    (h3 : d.aspectCheck = statusOK)
    (hq : req.quotas = pre ++ (name, param) :: post)
    (hpre : ∀ e ∈ pre, ∃ v, d.newQuota (mkQuotaArgs req.deduplicationId e.1 e.2) = Except.ok v)
    (htgt : d.newQuota (mkQuotaArgs req.deduplicationId name param) = Except.error err) :
    ∃ res oldT,
      CheckModel true d req = Except.ok
        ({ precondition :=
             { status := statusWithError err,
               validDuration := defaultValidDuration,
               validUseCount := defaultValidUseCount },
           quotas := some res },
         (pre.map fun e => mkQuotaArgs req.deduplicationId e.1 e.2)
           ++ [mkQuotaArgs req.deduplicationId name param], oldT)
      ∧ res.map Prod.fst = pre.map Prod.fst := by
  have hfe : checkFrontEnd true d = (statusOK, defaultValidDuration, defaultValidUseCount) := by
    unfold checkFrontEnd
    rw [h2, h3]
    rfl
  have hne : req.quotas.isEmpty = false := by
    rw [hq]
    cases pre <;> rfl
  obtain ⟨res, oldT, hloop, hfst⟩ :=
    quotaLoop_error d.newQuota d.oldQuota req.deduplicationId name param post err htgt pre hpre
  refine ⟨res, oldT, ?_, hfst⟩
  unfold CheckModel
  rw [h1, hfe]
  rw [show req.quotas = pre ++ (name, param) :: post from hq] at hne ⊢
  rw [hloop]
  simp only [hne]
  rfl

/-- Witness for C4: the second of three named quotas fails, the first was
dispatched, and the third is not processed. -/
theorem quota_error_fails_check_witness :
    ∃ res oldT,
      CheckModel true errDispatch
          { quotas := [("good", { amount := 5, bestEffort := false }),
                       ("bad", { amount := 2, bestEffort := true }),
                       ("after", { amount := 1, bestEffort := false })],
            deduplicationId := "id" }
        = Except.ok
          ({ precondition :=
               { status := statusWithError "boom",
                 validDuration := defaultValidDuration,
                 validUseCount := defaultValidUseCount },
             quotas := some res },
           ([("good", { amount := 5, bestEffort := false })].map
               fun e : String × QuotaSpec => mkQuotaArgs "id" e.1 e.2)
             ++ [mkQuotaArgs "id" "bad" { amount := 2, bestEffort := true }], oldT)
      ∧ res.map Prod.fst
          = [("good", ({ amount := 5, bestEffort := false } : QuotaSpec))].map Prod.fst :=
  quota_error_fails_check errDispatch
    { quotas := [("good", { amount := 5, bestEffort := false }),
                 ("bad", { amount := 2, bestEffort := true }),
                 ("after", { amount := 1, bestEffort := false })],
      deduplicationId := "id" }
    [("good", { amount := 5, bestEffort := false })]
    [("after", { amount := 1, bestEffort := false })]
    "bad" { amount := 2, bestEffort := true } "boom"
    rfl rfl rfl rfl
    (by
      intro e he
      rw [List.mem_singleton] at he
      subst he
      exact ⟨none, rfl⟩)
    rfl

/-! ## C7: identical quota args are forwarded on both calls -/

/-- C7: two Check calls carrying the same DeduplicationId and naming the
same quota with the same amount and best-effort flag (possibly observing
different dispatcher states) each forward exactly one QuotaMethodArgs to
the quota dispatcher, the two forwarded records are identical, and the
forwarded DeduplicationID is the request id concatenated with the quota
name: the server neither caches nor coalesces quota decisions. -/
theorem quota_dedup_passthrough (dOne dTwo : Dispatch) (req : CheckRequest)
    (name : String) (param : QuotaSpec)
    (hq : req.quotas = [(name, param)])
    (hpOne : IsOK dOne.preprocess = true)
    (hfOne : IsOK (checkFrontEnd true dOne).1 = true)
    (hpTwo : IsOK dTwo.preprocess = true)
    (hfTwo : IsOK (checkFrontEnd true dTwo).1 = true) :
    ∃ aOne aTwo,
      CheckModel true dOne req = Except.ok aOne
      ∧ CheckModel true dTwo req = Except.ok aTwo
      ∧ aOne.2.1 = [mkQuotaArgs req.deduplicationId name param]
      ∧ aTwo.2.1 = [mkQuotaArgs req.deduplicationId name param]
      ∧ (mkQuotaArgs req.deduplicationId name param).deduplicationID
          = req.deduplicationId ++ name := by
  have key : ∀ dd : Dispatch, IsOK dd.preprocess = true →
      IsOK (checkFrontEnd true dd).1 = true →
      ∃ a, CheckModel true dd req = Except.ok a
        ∧ a.2.1 = [mkQuotaArgs req.deduplicationId name param] := by
    intro dd hp hf
    simp only [CheckModel, hp, hq, hf, if_true, List.isEmpty_cons, Bool.not_false,
      Bool.true_and, Bool.and_true, Bool.and_self, ite_true]
    refine ⟨_, rfl, ?_⟩
    exact quotaLoop_single_trace dd.newQuota dd.oldQuota req.deduplicationId name param
  obtain ⟨aOne, heOne, htOne⟩ := key dOne hpOne hfOne
  obtain ⟨aTwo, heTwo, htTwo⟩ := key dTwo hpTwo hfTwo
  exact ⟨aOne, aTwo, heOne, heTwo, htOne, htTwo, rfl⟩

/-- Witness for C7 at two concrete dispatch states, one knowing no quota
and one granting, with the same request. -/
theorem quota_dedup_passthrough_witness :
    ∃ aOne aTwo,
      CheckModel true cleanDispatch
          { quotas := [("q", { amount := 3, bestEffort := false })],
            deduplicationId := "dup" } = Except.ok aOne
      ∧ CheckModel true grantDispatch
          { quotas := [("q", { amount := 3, bestEffort := false })],
            deduplicationId := "dup" } = Except.ok aTwo
      ∧ aOne.2.1 = [mkQuotaArgs "dup" "q" { amount := 3, bestEffort := false }]
      ∧ aTwo.2.1 = [mkQuotaArgs "dup" "q" { amount := 3, bestEffort := false }]
      ∧ (mkQuotaArgs "dup" "q" { amount := 3, bestEffort := false }).deduplicationID
          = "dup" ++ "q" :=
  quota_dedup_passthrough cleanDispatch grantDispatch
    { quotas := [("q", { amount := 3, bestEffort := false })], deduplicationId := "dup" }
    "q" { amount := 3, bestEffort := false } rfl rfl rfl rfl rfl

/-! ## C10: a failed precondition skips the quota phase -/

/-- C10: when the merged precondition status of a Check is non-OK (and the
response exists, preprocess having succeeded), the quota phase is skipped
entirely: no quota is dispatched on either path and the response's Quotas
map stays nil. -/
theorem check_skips_quota_on_failure (hasD : Bool) (d : Dispatch) (req : CheckRequest)
    (h1 : IsOK d.preprocess = true)
    (h2 : IsOK (checkFrontEnd hasD d).1 = false) :
    CheckModel hasD d req = Except.ok
      ({ precondition :=
           { status := (checkFrontEnd hasD d).1,
             validDuration := (checkFrontEnd hasD d).2.1,
             validUseCount := (checkFrontEnd hasD d).2.2 },
         quotas := none }, [], []) := by
  simp only [CheckModel, h1, h2, if_true, Bool.false_and, Bool.false_eq_true, if_false,
    ite_true, ite_false]

/-- Witness for C10 at a concrete dispatch state whose aspect check
denies. -/
theorem check_skips_quota_on_failure_witness :
    CheckModel true failedCheckDispatch
        { quotas := [("q", { amount := 5, bestEffort := false })],
          deduplicationId := "id" }
      = Except.ok
        ({ precondition :=
             { status := (checkFrontEnd true failedCheckDispatch).1,
               validDuration := (checkFrontEnd true failedCheckDispatch).2.1,
               validUseCount := (checkFrontEnd true failedCheckDispatch).2.2 },
           quotas := none }, [], []) :=
  check_skips_quota_on_failure true failedCheckDispatch
    { quotas := [("q", { amount := 5, bestEffort := false })], deduplicationId := "id" }
    rfl rfl

/-! ## C2: the end-to-end denier scenario -/

/-- C2 counterexample: the end-to-end test the claim cites,
TestDenierAdapter, asserts that the response precondition code equals 7
(PERMISSION_DENIED), not 9; running the Check pipeline with a denier
handler configured with the status the test asserts produces code 7, and
7 differs from the claimed 9 (the adapter default that the test
configuration overrides). -/
theorem denier_e2e_code_counterexample :
    ((CheckModel true
        (denierDispatch { code := testDenierAdapterExpectedCode, message := "Not allowed" })
        { quotas := [], deduplicationId := "" }).map
          fun a => a.1.precondition.status.code) = Except.ok 7
    ∧ testDenierAdapterExpectedCode ≠ 9
    ∧ denierDefaultStatus.code = 9 :=
  ⟨rfl, by decide, rfl⟩

/-- C2 (amended): with one denier listentry handler whose configured
status carries code 7 (the code TestDenierAdapter asserts; the test
configuration overrides the adapter default FAILED_PRECONDITION) and one
rule matching all requests, a Check returns a response whose
Precondition.Status.Code equals 7, with the denier validity of 1000
seconds and 1000 uses. -/
theorem denier_e2e_status_seven (m : String) (req : CheckRequest) :
    CheckModel true (denierDispatch { code := 7, message := m }) req =
      Except.ok
        ({ precondition :=
             { status := { code := 7, message := m },
               validDuration := 1000 * 1000000000,
               validUseCount := 1000 },
           quotas := none }, [], []) :=
  rfl

/-! ## C9: an empty Report returns immediately -/

/-- C9: a Report request whose attribute list is empty returns the shared
empty OK response immediately: no bag is built and neither the preprocess
nor the report phase dispatches anything. -/
theorem report_empty_early_out (hasD : Bool) (d : ReportDispatchOracle)
    (req : ReportRequest) (h : req.attributes = []) :
    ReportModel hasD d req = (Except.ok reportResp, []) := by
  unfold ReportModel
  rw [h]
  rfl

/-- Witness for C9 at the concrete empty request and a clean oracle. -/
theorem report_empty_early_out_witness :
    ReportModel true cleanReportOracle { attributes := [] }
      = (Except.ok reportResp, []) :=
  report_empty_early_out true cleanReportOracle { attributes := [] } rfl
